import Mathlib

/-!
Shallow embedding of `scripts/rebuild-branches.py`.

The script is a linear orchestration: it snapshots the most advanced
branch's files, then for each of six branches runs
(checkout, hard reset, file mutations, add+commit) and finally checks out
`main`.  We embed it as a list of abstract steps interpreted over a state
holding the git branch trees, the working tree, the captured snapshot and a
trace of executed commands.  External commands are mediated by an oracle
giving each invocation its exit code and stdout, which is exactly the
interface the script observes (`subprocess.run` with `capture_output`).

Directories are implicit: the filesystem is a map from relative paths to
file contents, so `os.makedirs` has no observable effect of its own and
`shutil.rmtree` removes every file under the directory.

The large template string constants of the script (UI markup and similar
payloads) are inert data; they enter the model through a parameter
`tpl : String → String` mapping each template constant's name to its text,
so every theorem below is universally quantified over their contents.
-/

namespace Rebuild

/-- A working tree / committed tree: relative path to file content. -/
abbrev Tree := String → Option String

/-- Python `textwrap`-style helpers: space or tab. -/
def isSpTab (ch : Char) : Bool := ch = ' ' ∨ ch = '\t'

/-- Characters stripped by Python `str.lstrip()` / `str.strip()`. -/
def isPySpace (ch : Char) : Bool :=
  ch = ' ' ∨ ch = '\t' ∨ ch = '\n' ∨ ch = '\r' ∨ ch = '\x0b' ∨ ch = '\x0c'

/-- Python `str.lstrip()`. -/
def pyLstrip (s : String) : String := ⟨s.data.dropWhile isPySpace⟩

/-- Python `str.strip()` (as used on captured stdout in `run`). -/
def pyStrip (s : String) : String :=
  ⟨(((s.data.dropWhile isPySpace).reverse).dropWhile isPySpace).reverse⟩

/-- Split a character list on newlines, Python `text.split("\n")` style:
the empty text yields one empty line. -/
def splitNl : List Char → List (List Char)
  | [] => [[]]
  | ch :: rest =>
      if ch = '\n' then [] :: splitNl rest
      else
        match splitNl rest with
        | l :: ls => (ch :: l) :: ls
        | [] => [[ch]]

/-- Rejoin lines with newlines, Python `"\n".join(...)` style. -/
def joinNl : List (List Char) → List Char
  | [] => []
  | [l] => l
  | l :: ls => l ++ '\n' :: joinNl ls

/-- A line that consists solely of whitespace (nonempty, all space/tab);
`textwrap.dedent` normalises such lines to the empty line. -/
def isWSOnly (l : List Char) : Bool := l ≠ [] ∧ l.all isSpTab

/-- Longest common prefix of two character lists. -/
def lcp2 : List Char → List Char → List Char
  | a :: as, b :: bs => if a = b then a :: lcp2 as bs else []
  | _, _ => []

/-- Python `textwrap.dedent`: normalise whitespace-only lines to empty,
compute the longest common leading space/tab margin of the contentful
lines, and strip that margin from the start of every line carrying it. -/
def dedent (text : String) : String :=
  let lines := (splitNl text.data).map (fun l => if isWSOnly l then [] else l)
  let indents := (lines.filter (fun l => !l.all isSpTab)).map (fun l => l.takeWhile isSpTab)
  let margin : List Char :=
    match indents with
    | [] => []
    | i :: is => is.foldl lcp2 i
  let strip := fun (l : List Char) =>
    if margin ≠ [] ∧ margin.isPrefixOf l then l.drop margin.length else l
  ⟨joinNl (lines.map strip)⟩

/-- Raw filesystem write (as used by the snapshot-restore loop in
`rebuild_mvp_final`, which calls `open(path, "w").write(content)` directly). -/
def fsWrite (t : Tree) (p c : String) : Tree :=
  fun q => if q = p then some c else t q

/-- `remove(rel_path)`: `os.remove` guarded by `os.path.exists` — deletes
the file if present, no-op otherwise. -/
def fsRemove (t : Tree) (p : String) : Tree :=
  fun q => if q = p then none else t q

/-- `remove_dir(rel_dir)`: `shutil.rmtree` guarded by `os.path.exists` —
removes every file under the directory, no-op when nothing is there. -/
def fsRemoveDir (t : Tree) (d : String) : Tree :=
  fun q => if (d ++ "/").isPrefixOf q then none else t q

/-- `write(rel_path, content)`: ensures parent directories (implicit in the
path-map model) and writes `textwrap.dedent(content).lstrip()`. -/
def write (t : Tree) (rel_path content : String) : Tree :=
  fsWrite t rel_path (pyLstrip (dedent content))

/-- The git commands the script issues through `run`. -/
inductive GitCmd
  | checkout (ref : String)
  | resetHard (ref : String)
  | addAll
  | commit (msg : String)
  | stashDrop

/-- Repository model: every ref resolves to a tree (whether a checkout of a
particular name would really succeed is decided by the command oracle, the
only failure channel the script observes), plus the current branch and the
working tree. -/
structure GitState where
  branches : String → Tree
  head : String
  fs : Tree

/-- Resolve a reset/checkout target: `HEAD` is the current branch's tip. -/
def resolveRef (g : GitState) (ref : String) : Tree :=
  if ref = "HEAD" then g.branches g.head else g.branches ref

/-- Effect of a successful git command on the repository.
`checkout` switches branch and working tree; `reset --hard` moves the
current branch's tip (and the working tree) to the target tree; `commit`
(after `add -A`) records the working tree as the new tip. -/
def applyCmd (g : GitState) : GitCmd → GitState
  | .checkout ref => { g with head := ref, fs := resolveRef g ref }
  | .resetHard ref =>
      let t := resolveRef g ref
      { g with fs := t, branches := fun b => if b = g.head then t else g.branches b }
  | .addAll => g
  | .commit _ => { g with branches := fun b => if b = g.head then g.fs else g.branches b }
  | .stashDrop => g

/-- Trace events: an external command ran (recording the branch that was
current when it ran, the command, its fail-fast flag and its exit code), or
the snapshot capture completed. -/
inductive Event
  | ran (head : String) (c : GitCmd) (chk : Bool) (rc : Int)
  | captured

/-- Is this trace event a destructive hard reset? -/
def Event.isReset : Event → Bool
  | .ran _ (.resetHard _) _ _ => true
  | _ => false

/-- Interpreter state: repository, index of the next external command (the
oracle's clock), the event trace, and the `full_app_files` snapshot
variable of `__main__` (empty until the capture step). -/
structure ScriptState where
  git : GitState
  idx : Nat
  trace : List Event
  snap : List (String × String)

/-- The command oracle: for the n-th `subprocess.run` invocation, its exit
code and its stdout.  This is the entire interface the script observes. -/
abbrev Oracle := Nat → Int × String

/-- `run(cmd, check)`: execute the command; on non-zero exit with
`check=True` print diagnostics and `sys.exit` (modelled as `.error`,
carrying the repository state at abort); otherwise return the trimmed
stdout.  A failed command has no effect on the repository. -/
def runC (o : Oracle) (c : GitCmd) (chk : Bool) (s : ScriptState) :
    Except (String × ScriptState) (ScriptState × String) :=
  let rc := (o s.idx).1
  let s' : ScriptState :=
    { s with git := if rc = 0 then applyCmd s.git c else s.git,
             idx := s.idx + 1,
             trace := s.trace ++ [Event.ran s.git.head c chk rc] }
  if chk ∧ rc ≠ 0 then .error ("Command failed", s')
  else .ok (s', pyStrip (o s.idx).2)

/-- The fixed advanced-file list of `save_full_app_files`. -/
def full_app_paths : List String :=
  ["src/api/gemini.js",
   "src/engine/RandomForestRiskEngine.js",
   "src/services/HealthDataLogger.js",
   "src/services/SyncManager.js",
   "src/services/syncService.js",
   "src/components/CyclePrediction.js",
   "src/components/MoodHeatmap.js",
   "src/components/VoiceAlert.js",
   "src/components/RiskBadge.js",
   "src/components/SymptomToggle.js",
   "src/screens/ASHAScreen.js",
   "src/screens/ProfileSetupScreen.js",
   "src/screens/ResultScreen.js",
   "src/screens/RoleSelectionScreen.js",
   "src/screens/SymptomScreen.js",
   "app/asha.js",
   "app/role-select.js",
   "app/profile-setup.js",
   "app/result.js",
   "app/symptoms.js",
   "app/(tabs)/chat.js",
   "app/_layout.js",
   "app/(tabs)/index.js",
   "app/(tabs)/settings.js",
   "app/(tabs)/risk.js",
   "src/services/riskEngine.js",
   "src/services/emergencyService.js",
   "src/services/locationService.js",
   "src/services/storageService.js",
   "src/utils/storage.js",
   "src/utils/constants.js",
   "src/hooks/useCycleTracker.js",
   "src/constants/translations.js",
   "src/context/LanguageContext.js",
   "src/components/Calendar.js",
   "src/components/LanguageSwitch.js"]

/-- `save_full_app_files`: read each listed path from the current working
tree; paths that do not exist are skipped without error.  The Python dict
(insertion-ordered, string keys) is modelled as an association list. -/
def save_full_app_files (t : Tree) : List (String × String) :=
  full_app_paths.filterMap (fun rel => (t rel).map (fun c => (rel, c)))

/-- The restore loop of `rebuild_mvp_final`: write every captured
(path, content) pair back verbatim (raw `open(path, "w").write`, not the
dedenting `write` helper). -/
def restoreAll (full_app_files : List (String × String)) (t : Tree) : Tree :=
  full_app_files.foldl (fun acc pc => fsWrite acc pc.1 pc.2) t

/-- One step of the orchestration: an external git command, a pure
filesystem mutation (which may read the captured snapshot), or the
snapshot capture. -/
inductive Step
  | cmd (c : GitCmd) (chk : Bool)
  | fsOp (fmut : List (String × String) → Tree → Tree)
  | capture

/-- `git_add_commit(msg)`: `git add -A` then `git commit -m msg`, both
fail-fast. -/
def git_add_commit (msg : String) : List Step :=
  [Step.cmd GitCmd.addAll true, Step.cmd (GitCmd.commit msg) true]

/-- The common shape of the six rebuild functions: checkout, hard reset to
the base ref, file mutations, add+commit. -/
def rebuildSteps (branch baseRef : String) (fmut : Tree → Tree) (msg : String) :
    List Step :=
  [Step.cmd (GitCmd.checkout branch) true,
   Step.cmd (GitCmd.resetHard baseRef) true,
   Step.fsOp (fun _ => fmut)] ++ git_add_commit msg

/-- File mutations of `rebuild_main`: delete the advanced source folders
and app screens, then write the eight skeleton files. -/
def mainMut (tpl : String → String) (t : Tree) : Tree :=
  let t := ["src/api", "src/components", "src/context", "src/engine",
            "src/screens", "src/services", "src/hooks"].foldl fsRemoveDir t
  let t := ["app/asha.js", "app/profile-setup.js", "app/result.js",
            "app/role-select.js", "app/symptoms.js"].foldl fsRemove t
  let t := write t "src/utils/constants.js" (tpl "CONSTANTS_SKELETON")
  let t := write t "app/_layout.js" (tpl "ROOT_LAYOUT_SKELETON")
  let t := write t "app/(tabs)/_layout.js" (tpl "TABS_LAYOUT")
  let t := write t "app/(tabs)/index.js" (tpl "INDEX_SKELETON")
  let t := write t "app/(tabs)/risk.js" (tpl "RISK_SKELETON")
  let t := write t "app/(tabs)/chat.js" (tpl "CHAT_SKELETON")
  let t := write t "app/(tabs)/calendar.js" (tpl "CALENDAR_SKELETON")
  write t "app/(tabs)/settings.js" (tpl "SETTINGS_SKELETON")

/-- File mutations of `rebuild_core_logic`. -/
def coreMut (tpl : String → String) (t : Tree) : Tree :=
  let t := write t "src/services/riskEngine.js" (tpl "RISK_ENGINE")
  let t := write t "app/(tabs)/risk.js" (tpl "RISK_SCREEN_CORE")
  write t "app/(tabs)/index.js" (tpl "INDEX_CORE")

/-- File mutations of `rebuild_local_storage`. -/
def storageMut (tpl : String → String) (t : Tree) : Tree :=
  let t := write t "src/utils/storage.js" (tpl "STORAGE_UTIL")
  let t := write t "src/services/storageService.js" (tpl "STORAGE_SERVICE")
  let t := write t "src/hooks/useCycleTracker.js" (tpl "USE_CYCLE_TRACKER")
  let t := write t "app/(tabs)/index.js" (tpl "INDEX_STORAGE")
  write t "app/(tabs)/settings.js" (tpl "SETTINGS_STORAGE")

/-- File mutations of `rebuild_emergency`. -/
def emergencyMut (tpl : String → String) (t : Tree) : Tree :=
  let t := write t "src/services/emergencyService.js" (tpl "EMERGENCY_SERVICE")
  let t := write t "src/services/locationService.js" (tpl "LOCATION_SERVICE")
  write t "app/(tabs)/index.js" (tpl "INDEX_EMERGENCY")

/-- File mutations of `rebuild_ui_polish`. -/
def polishMut (tpl : String → String) (t : Tree) : Tree :=
  let t := write t "src/constants/translations.js" (tpl "TRANSLATIONS")
  let t := write t "src/context/LanguageContext.js" (tpl "LANGUAGE_CONTEXT")
  let t := write t "src/components/LanguageSwitch.js" (tpl "LANGUAGE_SWITCH_COMPONENT")
  let t := write t "src/components/Calendar.js" (tpl "CALENDAR_COMPONENT")
  let t := write t "app/_layout.js" (tpl "ROOT_LAYOUT_POLISH")
  let t := write t "app/(tabs)/index.js" (tpl "INDEX_POLISH")
  let t := write t "app/(tabs)/risk.js" (tpl "RISK_SCREEN_POLISH")
  write t "app/(tabs)/calendar.js" (tpl "CALENDAR_SCREEN_POLISH")

/-- `rebuild_main()`: reset `main` to the fixed starting ref `HEAD`. -/
def rebuild_main (tpl : String → String) : List Step :=
  rebuildSteps "main" "HEAD" (mainMut tpl)
    "setup: initial Expo Router project with navigation scaffold"

/-- `rebuild_core_logic()`: reset to `main`. -/
def rebuild_core_logic (tpl : String → String) : List Step :=
  rebuildSteps "feature/core-logic" "main" (coreMut tpl)
    "feat: add rule-based risk scoring engine and symptom form"

/-- `rebuild_local_storage()`: reset to `feature/core-logic`. -/
def rebuild_local_storage (tpl : String → String) : List Step :=
  rebuildSteps "feature/local-storage" "feature/core-logic" (storageMut tpl)
    "feat: integrate expo-secure-store for offline persistence and cycle prediction"

/-- `rebuild_emergency()`: reset to `feature/local-storage`. -/
def rebuild_emergency (tpl : String → String) : List Step :=
  rebuildSteps "feature/emergency-module" "feature/local-storage" (emergencyMut tpl)
    "feat: add GPS location fetch, emergency classification and SMS alert simulation"

/-- `rebuild_ui_polish()`: reset to `feature/emergency-module`. -/
def rebuild_ui_polish (tpl : String → String) : List Step :=
  rebuildSteps "feature/ui-polish" "feature/emergency-module" (polishMut tpl)
    "ui: add EN/HI language support, cycle calendar, and polished components"

/-- `rebuild_mvp_final(full_app_files)`: reset `demo/mvp-final` to
`feature/ui-polish`, restore every captured file verbatim, commit. -/
def rebuild_mvp_final : List Step :=
  [Step.cmd (GitCmd.checkout "demo/mvp-final") true,
   Step.cmd (GitCmd.resetHard "feature/ui-polish") true,
   Step.fsOp (fun snap t => restoreAll snap t)] ++
  git_add_commit "feat: add Gemini AI chat, ASHA worker flow, backend sync — full MVP"

/-- The `__main__` sequence: best-effort stash drop, checkout of the
advanced branch, snapshot capture, the six rebuilds in progression order,
final checkout of `main`. -/
def mainSteps (tpl : String → String) : List Step :=
  [Step.cmd GitCmd.stashDrop false,
   Step.cmd (GitCmd.checkout "demo/mvp-final") true,
   Step.capture] ++
  rebuild_main tpl ++ rebuild_core_logic tpl ++ rebuild_local_storage tpl ++
  rebuild_emergency tpl ++ rebuild_ui_polish tpl ++ rebuild_mvp_final ++
  [Step.cmd (GitCmd.checkout "main") true]

/-- Interpret one step. -/
def execStep (o : Oracle) (s : ScriptState) :
    Step → Except (String × ScriptState) ScriptState
  | .cmd c chk =>
      match runC o c chk s with
      | .error e => .error e
      | .ok (s', _) => .ok s'
  | .fsOp fmut => .ok { s with git := { s.git with fs := fmut s.snap s.git.fs } }
  | .capture => .ok { s with snap := save_full_app_files s.git.fs,
                             trace := s.trace ++ [Event.captured] }

/-- Interpret a step list, aborting at the first fatal command failure. -/
def execSteps (o : Oracle) (s : ScriptState) :
    List Step → Except (String × ScriptState) ScriptState
  | [] => .ok s
  | st :: rest =>
      match execStep o s st with
      | .error e => .error e
      | .ok s' => execSteps o s' rest

/-- The whole script run. -/
def mainScript (o : Oracle) (tpl : String → String) (s0 : ScriptState) :
    Except (String × ScriptState) ScriptState :=
  execSteps o s0 (mainSteps tpl)

/-- Trace of a finished or aborted run (the repository and its trace
survive a `sys.exit`). -/
def traceOfE : Except (String × ScriptState) ScriptState → List Event
  | .ok s => s.trace
  | .error (_, s) => s.trace

/-- The six branches in progression order. -/
def branchOrder : List String :=
  ["main", "feature/core-logic", "feature/local-storage",
   "feature/emergency-module", "feature/ui-polish", "demo/mvp-final"]

/-- The (branch, base ref) pairs of the hard resets in a trace. -/
def resetPairs (tr : List Event) : List (String × String) :=
  tr.filterMap (fun e =>
    match e with
    | .ran h (.resetHard r) _ _ => some (h, r)
    | _ => none)

/-- A tiny concrete starting state used by the witnesses. -/
def demoState : ScriptState :=
  { git := { branches := fun _ => fun _ => none, head := "main", fs := fun _ => none },
    idx := 0, trace := [], snap := [] }

/-- Oracle under which every external command succeeds silently. -/
def oAllOk : Oracle := fun _ => (0, "")

/-- Oracle with the same exit codes as `oAllOk` but different stdout
(different commit hashes, timestamps and similar run-to-run noise). -/
def oAllOkB : Oracle := fun _ => (0, "some other stdout")

/-- Oracle under which the 12th command — the hard reset of the third
branch, `feature/local-storage` — fails and everything before succeeds. -/
def oResetFail : Oracle := fun i => (if i = 11 then 1 else 0, "")

/-- Oracle under which the 22nd command — the commit of the fifth rebuild,
`feature/ui-polish` — exits 1, as `git commit` does when there is nothing
to commit; every other command succeeds. -/
def oNothingToCommit : Oracle := fun i => (if i = 21 then 1 else 0, "")

/-- Oracle under which every command fails. -/
def oFailNow : Oracle := fun _ => (1, "")

/-- Is this step a commit executed in best-effort (non-fail-fast) mode?
`commitStrict` holds when every commit in a step list is fail-fast. -/
def commitStrict : Step → Bool
  | .cmd (.commit _) chk => chk
  | _ => true

/-- Denotation of a single step whose command (if any) exits 0. -/
def stepOk (s : ScriptState) : Step → ScriptState
  | .cmd c chk => { s with git := applyCmd s.git c, idx := s.idx + 1,
                           trace := s.trace ++ [Event.ran s.git.head c chk 0] }
  | .fsOp fmut => { s with git := { s.git with fs := fmut s.snap s.git.fs } }
  | .capture => { s with snap := save_full_app_files s.git.fs,
                         trace := s.trace ++ [Event.captured] }

theorem execStep_ok_of (o : Oracle) (s : ScriptState) (st : Step)
    (h : (o s.idx).1 = 0) : execStep o s st = .ok (stepOk s st) := by
  cases st with
  | cmd c chk => simp [execStep, runC, stepOk, h]
  | fsOp fmut => rfl
  | capture => rfl

theorem execSteps_of_ok (o : Oracle) (hA : ∀ i, (o i).1 = 0) :
    ∀ (l : List Step) (s : ScriptState),
      execSteps o s l = .ok (l.foldl stepOk s) := by
  intro l
  induction l with
  | nil => intro s; rfl
  | cons st rest ih =>
      intro s
      simp only [execSteps, execStep_ok_of o s st (hA s.idx), List.foldl_cons]
      exact ih (stepOk s st)

theorem execStep_trace (o : Oracle) (s : ScriptState) (st : Step) :
    ∃ L, traceOfE (execStep o s st) = s.trace ++ L := by
  cases st with
  | cmd c chk =>
      refine ⟨[Event.ran s.git.head c chk ((o s.idx).1)], ?_⟩
      by_cases h : chk ∧ (o s.idx).1 ≠ 0
      · simp [execStep, runC, h, traceOfE]
      · simp [execStep, runC, h, traceOfE]
  | fsOp fmut => exact ⟨[], by simp [execStep, traceOfE]⟩
  | capture => exact ⟨[Event.captured], by simp [execStep, traceOfE]⟩

theorem execSteps_trace (o : Oracle) :
    ∀ (l : List Step) (s : ScriptState),
      ∃ L, traceOfE (execSteps o s l) = s.trace ++ L := by
  intro l
  induction l with
  | nil => intro s; exact ⟨[], by simp [execSteps, traceOfE]⟩
  | cons st rest ih =>
      intro s
      cases hst : execStep o s st with
      | error e =>
          obtain ⟨L, hL⟩ := execStep_trace o s st
          rw [hst] at hL
          refine ⟨L, ?_⟩
          simpa [execSteps, hst] using hL
      | ok s' =>
          obtain ⟨L1, hL1⟩ := execStep_trace o s st
          rw [hst] at hL1
          obtain ⟨L2, hL2⟩ := ih s'
          refine ⟨L1 ++ L2, ?_⟩
          simp only [traceOfE] at hL1
          simp [execSteps, hst, hL2, hL1, List.append_assoc]

theorem execStep_cong (o1 o2 : Oracle) (h : ∀ i, (o1 i).1 = (o2 i).1)
    (s : ScriptState) (st : Step) : execStep o1 s st = execStep o2 s st := by
  cases st with
  | cmd c chk =>
      simp only [execStep, runC, h s.idx]
      by_cases hc : chk ∧ (o2 s.idx).1 ≠ 0
      · simp [hc]
      · simp [hc]
  | fsOp fmut => rfl
  | capture => rfl

theorem execSteps_cong (o1 o2 : Oracle) (h : ∀ i, (o1 i).1 = (o2 i).1) :
    ∀ (l : List Step) (s : ScriptState), execSteps o1 s l = execSteps o2 s l := by
  intro l
  induction l with
  | nil => intro s; rfl
  | cons st rest ih =>
      intro s
      simp only [execSteps, execStep_cong o1 o2 h s st]
      cases execStep o2 s st with
      | error e => rfl
      | ok s' => exact ih s'

theorem restoreAll_not_mem (l : List (String × String)) (t : Tree) (p : String)
    (hp : p ∉ l.map Prod.fst) : restoreAll l t p = t p := by
  induction l generalizing t with
  | nil => rfl
  | cons a l ih =>
      simp only [List.map_cons, List.mem_cons, not_or] at hp
      have : restoreAll (a :: l) t = restoreAll l (fsWrite t a.1 a.2) := rfl
      rw [this, ih _ hp.2]
      simp [fsWrite, hp.1]

theorem restoreAll_lookup (l : List (String × String)) (t : Tree) (p : String)
    (hnd : (l.map Prod.fst).Nodup) :
    restoreAll l t p =
      match l.lookup p with
      | some c => some c
      | none => t p := by
  induction l generalizing t with
  | nil => rfl
  | cons a l ih =>
      simp only [List.map_cons, List.nodup_cons] at hnd
      have hstep : restoreAll (a :: l) t = restoreAll l (fsWrite t a.1 a.2) := rfl
      by_cases hp : p = a.1
      · subst hp
        rw [hstep, restoreAll_not_mem l _ _ hnd.1]
        simp [fsWrite, List.lookup]
      · rw [hstep, ih _ hnd.2]
        have hbe : (p == a.1) = false := by simp [hp]
        simp [List.lookup, hbe, fsWrite, hp]

theorem save_lookup_aux (t : Tree) (p : String) :
    ∀ L : List String,
      (L.filterMap (fun rel => (t rel).map (fun c => (rel, c)))).lookup p =
        if p ∈ L then t p else none := by
  intro L
  induction L with
  | nil => simp
  | cons r L ih =>
      by_cases hr : p = r
      · subst hr
        cases ht : t p with
        | none => simp [List.filterMap_cons, ht, ih]
        | some c => simp [List.filterMap_cons, ht, List.lookup]
      · have hbe : (p == r) = false := by simp [hr]
        cases ht : t r with
        | none => simp [List.filterMap_cons, ht, ih, hr]
        | some c => simp [List.filterMap_cons, ht, List.lookup, hbe, hr, ih]

theorem save_mem_keys (t : Tree) (p : String) :
    ∀ L : List String,
      p ∈ (L.filterMap (fun rel => (t rel).map (fun c => (rel, c)))).map Prod.fst ↔
        p ∈ L ∧ t p ≠ none := by
  intro L
  induction L with
  | nil => simp
  | cons r L ih =>
      by_cases hr : p = r
      · subst hr
        cases ht : t p with
        | none => simp [List.filterMap_cons, ht, ih]
        | some c => simp [List.filterMap_cons, ht]
      · cases ht : t r with
        | none => simp [List.filterMap_cons, ht, ih, hr]
        | some c => simp [List.filterMap_cons, ht, ih, hr]

theorem save_keys_nodup (t : Tree) :
    ∀ L : List String, L.Nodup →
      (((L.filterMap (fun rel => (t rel).map (fun c => (rel, c)))).map Prod.fst)).Nodup := by
  intro L
  induction L with
  | nil => intro; simp
  | cons r L ih =>
      intro hnd
      rw [List.nodup_cons] at hnd
      cases ht : t r with
      | none => simpa [List.filterMap_cons, ht] using ih hnd.2
      | some c =>
          simp only [List.filterMap_cons, ht, Option.map_some', List.map_cons,
            List.nodup_cons]
          refine ⟨?_, ih hnd.2⟩
          intro hmem
          exact hnd.1 ((save_mem_keys t r L).mp hmem).1

theorem full_app_paths_nodup : full_app_paths.Nodup := by decide

theorem execStep_noCheck (o : Oracle) (s : ScriptState) (c : GitCmd) :
    execStep o s (Step.cmd c false) = .ok
      { s with git := if (o s.idx).1 = 0 then applyCmd s.git c else s.git,
               idx := s.idx + 1,
               trace := s.trace ++ [Event.ran s.git.head c false ((o s.idx).1)] } := by
  simp [execStep, runC]

theorem execStep_check_fail (o : Oracle) (s : ScriptState) (c : GitCmd)
    (h : (o s.idx).1 ≠ 0) :
    execStep o s (Step.cmd c true) = .error ("Command failed",
      { s with idx := s.idx + 1,
               trace := s.trace ++ [Event.ran s.git.head c true ((o s.idx).1)] }) := by
  simp [execStep, runC, h]

theorem execStep_capture (o : Oracle) (s : ScriptState) :
    execStep o s Step.capture = .ok
      { s with snap := save_full_app_files s.git.fs,
               trace := s.trace ++ [Event.captured] } := rfl

theorem execSteps_cons_ok (o : Oracle) (s : ScriptState) (st : Step)
    (rest : List Step) (s' : ScriptState) (h : execStep o s st = .ok s') :
    execSteps o s (st :: rest) = execSteps o s' rest := by
  simp only [execSteps, h]

theorem execSteps_cons_err (o : Oracle) (s : ScriptState) (st : Step)
    (rest : List Step) (e : String × ScriptState) (h : execStep o s st = .error e) :
    execSteps o s (st :: rest) = .error e := by
  simp only [execSteps, h]

/-- C1: after a full successful run, the tip tree of the final branch
`demo/mvp-final` is the union of the penultimate branch `feature/ui-polish`'s
tree (its reset base) and every (path, content) pair captured from
`demo/mvp-final` at snapshot time — at every path, the final tree holds the
captured content if that path was captured, and otherwise exactly the
`feature/ui-polish` file; in particular every captured pair is present. -/
theorem c1_final_tree_is_union (o : Oracle) (tpl : String → String)
    (s0 : ScriptState) (hA : ∀ i, (o i).1 = 0) :
    ∃ s', mainScript o tpl s0 = .ok s' ∧ ∀ p,
      s'.git.branches "demo/mvp-final" p =
        (match (save_full_app_files (s0.git.branches "demo/mvp-final")).lookup p with
         | some c => some c
         | none => s'.git.branches "feature/ui-polish" p) := by
  refine ⟨(mainSteps tpl).foldl stepOk s0, execSteps_of_ok o hA _ s0, ?_⟩
  intro p
  simp only [mainSteps, rebuild_main, rebuild_core_logic, rebuild_local_storage,
    rebuild_emergency, rebuild_ui_polish, rebuild_mvp_final, rebuildSteps,
    git_add_commit, List.cons_append, List.nil_append, List.append_assoc,
    List.foldl_cons, List.foldl_nil, stepOk, applyCmd, resolveRef]
  exact restoreAll_lookup _ _ _ (save_keys_nodup _ _ full_app_paths_nodup)

theorem c1_final_tree_is_union_witness :
    ∃ s', mainScript oAllOk (fun _ => "") demoState = .ok s' ∧ ∀ p,
      s'.git.branches "demo/mvp-final" p =
        (match (save_full_app_files (demoState.git.branches "demo/mvp-final")).lookup p with
         | some c => some c
         | none => s'.git.branches "feature/ui-polish" p) :=
  c1_final_tree_is_union oAllOk (fun _ => "") demoState (fun _ => rfl)

/-- C2: in every execution — whatever the initial repository and whatever
the commands' exit codes — every hard-reset event in the run's trace is
preceded by the snapshot-capture event: the capture completes strictly
before the first destructive reset of any branch. -/
theorem c2_capture_before_reset (o : Oracle) (tpl : String → String)
    (s0 : ScriptState) (htr : s0.trace = []) :
    ∀ i e, (traceOfE (mainScript o tpl s0)).get? i = some e → e.isReset = true →
      ∃ j, j < i ∧ (traceOfE (mainScript o tpl s0)).get? j = some Event.captured := by
  have hms : mainSteps tpl = Step.cmd GitCmd.stashDrop false ::
      (Step.cmd (GitCmd.checkout "demo/mvp-final") true :: (Step.capture ::
      (rebuild_main tpl ++ (rebuild_core_logic tpl ++ (rebuild_local_storage tpl ++
       (rebuild_emergency tpl ++ (rebuild_ui_polish tpl ++ (rebuild_mvp_final ++
       [Step.cmd (GitCmd.checkout "main") true])))))))) := by
    simp [mainSteps]
  have key : (∃ rc0 rc1 : Int, traceOfE (mainScript o tpl s0) =
      [Event.ran s0.git.head GitCmd.stashDrop false rc0,
       Event.ran s0.git.head (GitCmd.checkout "demo/mvp-final") true rc1]) ∨
      (∃ (rc0 : Int) (L : List Event), traceOfE (mainScript o tpl s0) =
        Event.ran s0.git.head GitCmd.stashDrop false rc0 ::
        Event.ran s0.git.head (GitCmd.checkout "demo/mvp-final") true 0 ::
        Event.captured :: L) := by
    rw [mainScript, hms]
    rw [execSteps_cons_ok o _ _ _ _ (execStep_noCheck o s0 _)]
    by_cases hrc : (o (s0.idx + 1)).1 = 0
    · right
      rw [execSteps_cons_ok o _ _ _ _ (execStep_ok_of o _ _ hrc)]
      rw [execSteps_cons_ok o _ _ _ _ (execStep_capture o _)]
      have hgen : ∀ (s : ScriptState), s.trace =
          [Event.ran s0.git.head GitCmd.stashDrop false ((o s0.idx).1),
           Event.ran s0.git.head (GitCmd.checkout "demo/mvp-final") true 0,
           Event.captured] →
          ∃ (rc0 : Int) (L : List Event),
            traceOfE (execSteps o s
              (rebuild_main tpl ++ (rebuild_core_logic tpl ++ (rebuild_local_storage tpl ++
               (rebuild_emergency tpl ++ (rebuild_ui_polish tpl ++ (rebuild_mvp_final ++
               [Step.cmd (GitCmd.checkout "main") true]))))))) =
            Event.ran s0.git.head GitCmd.stashDrop false rc0 ::
            Event.ran s0.git.head (GitCmd.checkout "demo/mvp-final") true 0 ::
            Event.captured :: L := by
        intro s hs
        obtain ⟨L, hL⟩ := execSteps_trace o _ s
        rw [hs] at hL
        exact ⟨(o s0.idx).1, L, by simpa using hL⟩
      apply hgen
      simp [stepOk, applyCmd, htr]
    · left
      rw [execSteps_cons_err o _ _ _ _ (execStep_check_fail o _ _ hrc)]
      refine ⟨(o s0.idx).1, (o (s0.idx + 1)).1, ?_⟩
      simp [traceOfE, htr, applyCmd]
  intro i e hi hres
  rcases key with ⟨rc0, rc1, hT⟩ | ⟨rc0, L, hT⟩
  · rw [hT] at hi
    match i, hi with
    | 0, hi => cases hi; simp [Event.isReset] at hres
    | 1, hi => cases hi; simp [Event.isReset] at hres
    | (n+2), hi => simp at hi
  · rw [hT] at hi ⊢
    match i, hi with
    | 0, hi => cases hi; simp [Event.isReset] at hres
    | 1, hi => cases hi; simp [Event.isReset] at hres
    | 2, hi => cases hi; simp [Event.isReset] at hres
    | (n+3), hi => exact ⟨2, by omega, rfl⟩

theorem c2_capture_before_reset_witness :
    ∃ j, j < 4 ∧
      (traceOfE (mainScript oAllOk (fun _ => "") demoState)).get? j =
        some Event.captured :=
  c2_capture_before_reset oAllOk (fun _ => "") demoState rfl 4
    (Event.ran "main" (GitCmd.resetHard "HEAD") true 0) rfl rfl

/-- C3: the snapshot capture returns exactly the subset of the fixed path
list present in the source tree: looking up a listed path yields its
content when the file exists, an absent or unlisted path never appears as
a key, and no error is possible (the function is total). -/
theorem c3_snapshot_exact (t : Tree) (p : String) :
    (save_full_app_files t).lookup p = (if p ∈ full_app_paths then t p else none) ∧
    (p ∈ (save_full_app_files t).map Prod.fst ↔ p ∈ full_app_paths ∧ t p ≠ none) :=
  ⟨save_lookup_aux t p full_app_paths, save_mem_keys t p full_app_paths⟩

theorem c3_snapshot_exact_witness :
    ((save_full_app_files (fun _ => some "body")).lookup "src/api/gemini.js" =
      (if "src/api/gemini.js" ∈ full_app_paths then some "body" else none)) ∧
    ("src/api/gemini.js" ∈ (save_full_app_files (fun _ => some "body")).map Prod.fst ↔
      "src/api/gemini.js" ∈ full_app_paths ∧ (some "body" ≠ (none : Option String))) :=
  c3_snapshot_exact (fun _ => some "body") "src/api/gemini.js"

/-- C4: if every strict command before the third branch's hard reset
succeeds and that reset (the 12th external command) exits non-zero, the
run aborts with a non-zero process exit (`sys.exit`, modelled as
`.error`), and branches four to six (`feature/emergency-module`,
`feature/ui-polish`, `demo/mvp-final`) keep exactly their previous tip
trees — no later rebuild step executes. -/
theorem c4_abort_on_failed_reset (o : Oracle) (tpl : String → String)
    (s0 : ScriptState) (hidx : s0.idx = 0)
    (hpre : ∀ i, i < 11 → (o i).1 = 0) (h11 : (o 11).1 ≠ 0) :
    ∃ m s', mainScript o tpl s0 = .error (m, s') ∧
      s'.git.branches "feature/emergency-module" =
        s0.git.branches "feature/emergency-module" ∧
      s'.git.branches "feature/ui-polish" = s0.git.branches "feature/ui-polish" ∧
      s'.git.branches "demo/mvp-final" = s0.git.branches "demo/mvp-final" := by
  have h0 := hpre 0 (by omega)
  have h1 := hpre 1 (by omega)
  have h2 := hpre 2 (by omega)
  have h3 := hpre 3 (by omega)
  have h4 := hpre 4 (by omega)
  have h5 := hpre 5 (by omega)
  have h6 := hpre 6 (by omega)
  have h7 := hpre 7 (by omega)
  have h8 := hpre 8 (by omega)
  have h9 := hpre 9 (by omega)
  have h10 := hpre 10 (by omega)
  simp only [mainScript, mainSteps, rebuild_main, rebuild_core_logic,
    rebuild_local_storage, rebuild_emergency, rebuild_ui_polish, rebuild_mvp_final,
    rebuildSteps, git_add_commit, List.cons_append, List.nil_append, List.append_assoc]
  simp [execSteps, execStep, runC, applyCmd, resolveRef, hidx, h0, h1, h2, h3, h4, h5,
    h6, h7, h8, h9, h10, h11]
  refine ⟨_, _, ⟨rfl, rfl⟩, ?_, ?_, ?_⟩ <;> rfl

theorem c4_abort_on_failed_reset_witness :
    ∃ m s', mainScript oResetFail (fun _ => "") demoState = .error (m, s') ∧
      s'.git.branches "feature/emergency-module" =
        demoState.git.branches "feature/emergency-module" ∧
      s'.git.branches "feature/ui-polish" = demoState.git.branches "feature/ui-polish" ∧
      s'.git.branches "demo/mvp-final" = demoState.git.branches "demo/mvp-final" :=
  c4_abort_on_failed_reset oResetFail (fun _ => "") demoState rfl
    (by decide) (by decide)

/-- C5 counterexample: a best-effort (`check=False`) command that exits
non-zero with stdout `" oops "` makes `run` return `"oops"` — the trimmed
stdout, not the empty string the claim demands. -/
theorem c5_cex :
    (runC (fun _ => (1, " oops ")) GitCmd.stashDrop false demoState).toOption.map
        Prod.snd = some "oops" ∧
    ("oops" : String) ≠ "" := by
  constructor
  · rfl
  · decide

/-- C5 (amended): for every command executed with `check=False`, a
non-zero exit code is treated as success — `run` never aborts and the run
continues — but it returns the command's captured stdout, trimmed, which
need not be empty (the source returns `r.stdout.strip()` unconditionally). -/
theorem c5_bestEffort_returns_stdout (o : Oracle) (c : GitCmd) (s : ScriptState) :
    runC o c false s = .ok
      ({ s with git := if (o s.idx).1 = 0 then applyCmd s.git c else s.git,
                idx := s.idx + 1,
                trace := s.trace ++ [Event.ran s.git.head c false ((o s.idx).1)] },
       pyStrip (o s.idx).2) := by
  simp [runC]

theorem c5_bestEffort_returns_stdout_witness :
    runC oFailNow GitCmd.stashDrop false demoState = .ok
      ({ demoState with
          git := if (oFailNow demoState.idx).1 = 0 then
                   applyCmd demoState.git GitCmd.stashDrop
                 else demoState.git,
          idx := demoState.idx + 1,
          trace := demoState.trace ++
            [Event.ran demoState.git.head GitCmd.stashDrop false
              ((oFailNow demoState.idx).1)] },
       pyStrip (oFailNow demoState.idx).2) :=
  c5_bestEffort_returns_stdout oFailNow GitCmd.stashDrop demoState

/-- C6 counterexample: writing the content `"  x"` stores `"x"`, not the
verbatim content — the File Writer dedents and left-strips before
storing, so reading back need not yield the content passed in. -/
theorem c6_cex :
    write (fun _ => none) "a.js" "  x" "a.js" = some "x" ∧
    write (fun _ => none) "a.js" "  x" "a.js" ≠ some "  x" := by
  constructor
  · decide
  · decide

/-- C6 (amended): `write(path, content)` creates the (implicit) parent
directories and fully replaces the file at `path`, storing
`textwrap.dedent(content).lstrip()` — the dedented and left-stripped
transformation of the content, which coincides with the content itself
only when the content is already dedented and has no leading whitespace;
all other paths are untouched. -/
theorem c6_write_dedents (t : Tree) (p c : String) :
    write t p c p = some (pyLstrip (dedent c)) ∧
    ∀ q, q ≠ p → write t p c q = t q := by
  constructor
  · simp [write, fsWrite]
  · intro q hq
    simp [write, fsWrite, hq]

theorem c6_write_dedents_witness :
    write (fun _ => none) "b.js" "hello" "b.js" = some (pyLstrip (dedent "hello")) ∧
    ∀ q, q ≠ "b.js" → write (fun _ => none) "b.js" "hello" q = none :=
  c6_write_dedents (fun _ => none) "b.js" "hello"

/-- C7: on a fully successful run the hard resets, in order, are exactly
(branch, base): each of the six branches is reset to the immediately
preceding branch of the progression, except the first (`main`), whose
base is the fixed ref `HEAD`, which is not one of the six branches. -/
theorem c7_reset_bases (o : Oracle) (tpl : String → String) (s0 : ScriptState)
    (hA : ∀ i, (o i).1 = 0) (htr : s0.trace = []) :
    ∃ s', mainScript o tpl s0 = .ok s' ∧
      resetPairs s'.trace = branchOrder.zip ("HEAD" :: branchOrder) ∧
      "HEAD" ∉ branchOrder := by
  refine ⟨(mainSteps tpl).foldl stepOk s0, execSteps_of_ok o hA _ s0, ?_, by decide⟩
  simp only [mainSteps, rebuild_main, rebuild_core_logic, rebuild_local_storage,
    rebuild_emergency, rebuild_ui_polish, rebuild_mvp_final, rebuildSteps,
    git_add_commit, List.cons_append, List.nil_append, List.append_assoc,
    List.foldl_cons, List.foldl_nil, stepOk, applyCmd, resolveRef]
  simp [resetPairs, htr, branchOrder]

theorem c7_reset_bases_witness :
    ∃ s', mainScript oAllOk (fun _ => "") demoState = .ok s' ∧
      resetPairs s'.trace = branchOrder.zip ("HEAD" :: branchOrder) ∧
      "HEAD" ∉ branchOrder :=
  c7_reset_bases oAllOk (fun _ => "") demoState (fun _ => rfl) rfl

/-- C8 counterexample: a "nothing to commit" failure (the commit command
exiting 1) at the fifth rebuild, `feature/ui-polish` — not the first call
of the chain — still aborts the whole run instead of degrading gracefully:
the run errors out and the next branch `demo/mvp-final` receives no new
tip. -/
theorem c8_cex :
    ∃ m s', mainScript oNothingToCommit (fun _ => "x") demoState = .error (m, s') ∧
      s'.git.branches "demo/mvp-final" = demoState.git.branches "demo/mvp-final" :=
  ⟨_, _, rfl, rfl⟩

/-- C8 (amended): a "nothing to commit" condition is fatal in every branch
rebuild, not only the first: every commit in the whole sequence runs in
fail-fast mode, and a non-zero exit of any such commit aborts the run. -/
theorem c8_commit_always_strict (tpl : String → String) :
    ((mainSteps tpl).all commitStrict = true) ∧
    (∀ (o : Oracle) (s : ScriptState) (msg : String), (o s.idx).1 ≠ 0 →
      ∃ s', execStep o s (Step.cmd (GitCmd.commit msg) true) =
        .error ("Command failed", s')) := by
  constructor
  · rfl
  · intro o s msg h
    exact ⟨_, execStep_check_fail o s _ h⟩

theorem c8_commit_always_strict_witness :
    ((mainSteps (fun _ => "")).all commitStrict = true) ∧
    (∃ s', execStep oFailNow demoState (Step.cmd (GitCmd.commit "m") true) =
      .error ("Command failed", s')) :=
  ⟨(c8_commit_always_strict (fun _ => "")).1,
   (c8_commit_always_strict (fun _ => "")).2 oFailNow demoState "m" (by decide)⟩

/-- C9: the run is deterministic in everything but the external commands'
stdout (commit hashes, timestamps): two runs from the same starting state
whose commands return the same exit codes produce identical results — in
particular, on success, byte-identical trees for every branch. -/
theorem c9_deterministic (o1 o2 : Oracle) (tpl : String → String)
    (s0 : ScriptState) (h : ∀ i, (o1 i).1 = (o2 i).1) :
    mainScript o1 tpl s0 = mainScript o2 tpl s0 ∧
    (∀ s1 s2, mainScript o1 tpl s0 = .ok s1 → mainScript o2 tpl s0 = .ok s2 →
      ∀ b p, s1.git.branches b p = s2.git.branches b p) := by
  have heq := execSteps_cong o1 o2 h (mainSteps tpl) s0
  refine ⟨heq, ?_⟩
  intro s1 s2 h1 h2 b p
  rw [mainScript] at h1 h2
  rw [heq] at h1
  have hok := h1.symm.trans h2
  injection hok with hok
  rw [hok]

theorem c9_deterministic_witness :
    mainScript oAllOk (fun _ => "") demoState =
      mainScript oAllOkB (fun _ => "") demoState ∧
    (∀ s1 s2, mainScript oAllOk (fun _ => "") demoState = .ok s1 →
      mainScript oAllOkB (fun _ => "") demoState = .ok s2 →
      ∀ b p, s1.git.branches b p = s2.git.branches b p) :=
  c9_deterministic oAllOk oAllOkB (fun _ => "") demoState (fun _ => rfl)

/-- C10: the final-branch restore loop and the File Writer are different
write paths: restoring puts every captured (path, content) pair back
byte-for-byte — looking the restored path up yields exactly the captured
content — while the File Writer stores `dedent(content).lstrip()`, and
there are contents on which the two disagree. -/
theorem c10_restore_verbatim_writer_not :
    (∀ (snap : List (String × String)) (t : Tree) (p c : String),
        (snap.map Prod.fst).Nodup → snap.lookup p = some c →
        restoreAll snap t p = some c) ∧
    (∀ (t : Tree) (p c : String), write t p c p = some (pyLstrip (dedent c))) ∧
    (∃ c : String, pyLstrip (dedent c) ≠ c) := by
  refine ⟨?_, ?_, ⟨"  x", by decide⟩⟩
  · intro snap t p c hnd hl
    rw [restoreAll_lookup snap t p hnd, hl]
  · intro t p c
    simp [write, fsWrite]

theorem c10_restore_verbatim_writer_not_witness :
    restoreAll [("a", "  b")] (fun _ => none) "a" = some "  b" ∧
    write (fun _ => none) "f" "hi" "f" = some (pyLstrip (dedent "hi")) :=
  ⟨c10_restore_verbatim_writer_not.1 [("a", "  b")] (fun _ => none) "a" "  b"
      (by decide) (by decide),
   c10_restore_verbatim_writer_not.2.1 (fun _ => none) "f" "hi"⟩

end Rebuild
